import Mathlib

/-!
Verification of the projectflow backend core (task/project permission and
notification propagation logic) against its specification.

The definitions below are a shallow embedding of the JavaScript source:

* `calculateProjectStatus` embeds the pure status aggregator found in
  `src/services/projectService.js` (and its verbatim copy in
  `src/controllers/projectController.js`).
* `updateTask` and `reorderTasks` embed the corresponding functions of
  `src/services/taskService.js`; the Prisma store is embedded as an explicit
  `DB` record threaded through the functions, with each `await prisma...`
  call turned into a pure query/update of that record and each
  `notificationService.createAndSendNotification` call turned into an append
  to the notification log (the durable side effect of that service).

Domain status values are the Hebrew strings used by the source.
-/

namespace ProjectFlow

/-- Task status literal `'מתוכנן'` (Planned) used by the source. -/
def stPlanned : String := "מתוכנן"

/-- Task status literal `'בתהליך'` (InProgress) used by the source. -/
def stInProgress : String := "בתהליך"

/-- Task status literal `'תקוע'` (Stuck) used by the source. -/
def stStuck : String := "תקוע"

/-- Task status literal `'הושלם'` (Completed) used by the source. -/
def stCompleted : String := "הושלם"

/-- Project status literal `'בסיכון'` (AtRisk) used by the source. -/
def stAtRisk : String := "בסיכון"

/-- A task row. Fields are the ones read or written by the embedded service
functions (`prisma.task`); `startDate`/`endDate` hold the stored date in
`YYYY-MM-DD` form; the assignee relation lives in `DB.taskAssignees`. -/
structure Task where
  id : String := ""
  projectId : String := ""
  title : String := ""
  description : Option String := none
  status : String := stPlanned
  startDate : String := ""
  endDate : String := ""
  expense : Option Int := none
  color : String := ""
  displayOrder : Int := 0
deriving DecidableEq, Repr

/-- Result of `calculateProjectStatus`. -/
structure ProjectStatus where
  status : String
  completionPercentage : Nat
deriving DecidableEq, Repr

/-- Number of binary digits of `n` (`⌊log2 n⌋ + 1` for `n ≥ 1`, `0` for
`0`), written with structural fuel recursion so that it evaluates in the
kernel. -/
def bitlenAux : Nat → Nat → Nat
  | 0, _ => 0
  | fuel + 1, n => if n = 0 then 0 else bitlenAux fuel (n / 2) + 1

def bitlen (n : Nat) : Nat := bitlenAux n n

/-- Round-to-nearest, ties to even, of the quotient `a / b` — the IEEE-754
rounding of an exact nonnegative rational to an integer. -/
def rneDiv (a b : Nat) : Nat :=
  let q := a / b
  let r := a % b
  if 2 * r < b then q
  else if b < 2 * r then q + 1
  else if q % 2 = 0 then q else q + 1

/-- `⌊log2 (p / q)⌋` for positive naturals, via the bit lengths and one
exact comparison. -/
def floorLog2Rat (p q : Nat) : Int :=
  let d : Int := (bitlen p : Int) - (bitlen q : Int)
  if 0 ≤ d then (if q * 2 ^ d.toNat ≤ p then d else d - 1)
  else (if q ≤ p * 2 ^ (-d).toNat then d else d - 1)

/-- `Math.round((completed / total) * 100)` as the source's JavaScript
evaluates it, modelled exactly over the integers: the division
`completed / total` is rounded to the nearest IEEE-754 binary64 value
(53-bit significand, ties to even), the product with 100 is rounded the
same way, and `Math.round` takes the closest integer to the exact value of
that double, ties toward `+∞` (`⌊x + 1/2⌋`). Exact for every count a
JavaScript array can produce (both below `2^53`, quotient in the normal
range); this evaluation differs from exact rational rounding on inputs
such as 23 of 40, where the double `(23/40)*100 = 57.49999999999999`
rounds to 57 while the exact `57.5` would round to 58. -/
def jsRound100 (completed total : Nat) : Nat :=
  if completed = 0 ∨ total = 0 then 0
  else
    let ef := floorLog2Rat completed total
    let j : Int := 52 - ef
    let M := if 0 ≤ j then rneDiv (completed * 2 ^ j.toNat) total
             else rneDiv completed (total * 2 ^ (-j).toNat)
    let e : Int := ef - 52
    let N := M * 100
    let s : Int := (bitlen N : Int) - 53
    let M2 := if s ≤ 0 then N else rneDiv N (2 ^ s.toNat)
    let e2 : Int := if s ≤ 0 then e else e + s
    if 0 ≤ e2 then M2 * 2 ^ e2.toNat
    else (2 * M2 + 2 ^ (-e2).toNat) / (2 * 2 ^ (-e2).toNat)

/-- The specification's rule 2, `round(100 * count / totalTasks)`, read as
exact rational rounding (round half up):
`⌊(100 * completed / total) + 1/2⌋ = (200 * completed + total) / (2 * total)`
in natural division. -/
def specRound100 (completed total : Nat) : Nat :=
  (200 * completed + total) / (2 * total)

/-- `calculateProjectStatus(tasks)` from `src/services/projectService.js`
(lines 317–341; the copy in `projectController.js` is identical). -/
def calculateProjectStatus (tasks : List Task) : ProjectStatus :=
  if tasks.length = 0 then { status := stPlanned, completionPercentage := 0 }
  else
    let totalTasks := tasks.length
    let completedTasks := (tasks.filter (fun t => t.status == stCompleted)).length
    let stuckTasks := (tasks.filter (fun t => t.status == stStuck)).length
    let completionPercentage := jsRound100 completedTasks totalTasks
    let status :=
      if stuckTasks > 0 then stAtRisk
      else if completionPercentage = 100 then stCompleted
      else if completionPercentage = 0 && tasks.all (fun t => t.status == stPlanned) then stPlanned
      else stInProgress
    { status := status, completionPercentage := completionPercentage }

/-- Reference status calculator transcribed from the specification, §4.1
rules 1–6, as the claim states them: rule 1 (empty set), rule 2 (the
exactly rounded completion percentage), rule 3 (`Stuck` present →
`AtRisk`), rule 4 (`100%` → `Completed`), rule 5 (`0%` and all `Planned` →
`Planned`), rule 6 (otherwise `InProgress`). -/
def calculateProjectStatusSpec (tasks : List Task) : ProjectStatus :=
  match tasks with
  | [] => { status := stPlanned, completionPercentage := 0 }
  | _ :: _ =>
    let pct := specRound100 (tasks.countP (fun t => t.status == stCompleted)) tasks.length
    let status :=
      if ∃ t ∈ tasks, t.status = stStuck then stAtRisk
      else if pct = 100 then stCompleted
      else if pct = 0 ∧ ∀ t ∈ tasks, t.status = stPlanned then stPlanned
      else stInProgress
    { status := status, completionPercentage := pct }

/-- The reference status calculator with rule 2 weakened to the source's
floating-point evaluation of the percentage: the amended reference for
claim C2. -/
def calculateProjectStatusSpecIEEE (tasks : List Task) : ProjectStatus :=
  match tasks with
  | [] => { status := stPlanned, completionPercentage := 0 }
  | _ :: _ =>
    let pct := jsRound100 (tasks.countP (fun t => t.status == stCompleted)) tasks.length
    let status :=
      if ∃ t ∈ tasks, t.status = stStuck then stAtRisk
      else if pct = 100 then stCompleted
      else if pct = 0 ∧ ∀ t ∈ tasks, t.status = stPlanned then stPlanned
      else stInProgress
    { status := status, completionPercentage := pct }

/-- The 40-task collection (23 Completed, 17 Planned) on which the
program's floating-point percentage disagrees with the specification's
exact rounding. -/
def tasks40 : List Task :=
  List.replicate 23 ({ status := stCompleted } : Task) ++
    List.replicate 17 ({ status := stPlanned } : Task)

/-- Counterexample for C2 as stated: at 23 completed of 40 tasks the
source evaluates `(23/40)*100` in binary64 to `57.49999999999999` and
returns 57, while the reference `round(100 * 23 / 40) = round(57.5)`
gives 58 — so `calculateProjectStatus` does not equal the exact reference
definition. -/
theorem c2_counterexample :
    (calculateProjectStatus tasks40).completionPercentage = 57 ∧
    specRound100 (tasks40.countP (fun t => t.status == stCompleted)) tasks40.length = 58 ∧
    calculateProjectStatus tasks40 ≠ calculateProjectStatusSpec tasks40 := by
  refine ⟨by decide, by decide, by decide⟩

/-- C2 (amended): `calculateProjectStatus` equals the reference definition
with rule 2 read as the source's floating-point evaluation: empty task
list → `Planned` with 0; non-empty list → the binary64-rounded completion
percentage, `AtRisk` when a task is stuck, else `Completed` at 100, else
`Planned` at 0 with every task planned, else `InProgress`. -/
theorem c2_calculator_matches_ieee_reference (tasks : List Task) :
    calculateProjectStatus tasks = calculateProjectStatusSpecIEEE tasks := by
  cases tasks with
  | nil => rfl
  | cons t ts =>
    simp only [calculateProjectStatus, calculateProjectStatusSpecIEEE,
      List.length_cons, Nat.succ_ne_zero, if_false,
      List.countP_eq_length_filter]
    congr 1
    have hstuck : (0 < ((t :: ts).filter (fun x => x.status == stStuck)).length)
        ↔ (∃ x ∈ t :: ts, x.status = stStuck) := by
      rw [List.length_pos_iff_exists_mem]
      constructor
      · rintro ⟨x, hx⟩
        rcases List.mem_filter.mp hx with ⟨hmem, hs⟩
        exact ⟨x, hmem, by simpa using hs⟩
      · rintro ⟨x, hmem, hs⟩
        exact ⟨x, List.mem_filter.mpr ⟨hmem, by simpa using hs⟩⟩
    have hall : ((t :: ts).all (fun x => x.status == stPlanned) = true)
        ↔ (∀ x ∈ t :: ts, x.status = stPlanned) := by
      simp [List.all_eq_true]
    by_cases h1 : ∃ x ∈ t :: ts, x.status = stStuck
    · rw [if_pos (hstuck.mpr h1), if_pos h1]
    · rw [if_neg (fun h => h1 (hstuck.mp h)), if_neg h1]
      by_cases h2 : jsRound100 ((t :: ts).filter (fun x => x.status == stCompleted)).length (ts.length + 1) = 100
      · rw [if_pos h2, if_pos h2]
      · rw [if_neg h2, if_neg h2]
        by_cases h3 : jsRound100 ((t :: ts).filter (fun x => x.status == stCompleted)).length (ts.length + 1) = 0
        · by_cases h4 : ∀ x ∈ t :: ts, x.status = stPlanned
          · rw [if_pos (by simp [h3, hall.mpr h4]), if_pos ⟨h3, h4⟩]
          · rw [if_neg ?_, if_neg ?_]
            · rintro ⟨-, hforall⟩; exact h4 hforall
            · simp only [Bool.and_eq_true, decide_eq_true_eq]
              rintro ⟨-, hforall⟩; exact h4 (hall.mp hforall)
        · rw [if_neg (by simp [h3]), if_neg (by rintro ⟨h, -⟩; exact h3 h)]

/-- A project row with its `projectTeamLeads` relation (the lead user ids). -/
structure Project where
  id : String := ""
  organizationId : String := ""
  title : String := ""
  projectTeamLeads : List String := []
deriving DecidableEq, Repr

/-- A persisted notification record, as written by
`notificationService.createAndSendNotification` (the durable side effect;
the optional socket push is best-effort and not part of the record). -/
structure Notification where
  userId : String
  type : String
  text : String
  link : Option String := none
deriving DecidableEq, Repr

/-- The slice of the Prisma store the embedded service functions touch.
`taskAssignees` holds `(taskId, userId)` join rows; `memberships` holds
`(organizationId, userId)` rows; `notifications` is an append-only log. -/
structure DB where
  projects : List Project := []
  tasks : List Task := []
  taskAssignees : List (String × String) := []
  users : List String := []
  memberships : List (String × String) := []
  notifications : List Notification := []
deriving DecidableEq, Repr

/-- `prisma.project.findUnique({ where: { id, organizationId } })`. -/
def findProject (db : DB) (projectId organizationId : String) : Option Project :=
  db.projects.find? (fun p => p.id == projectId && p.organizationId == organizationId)

/-- `prisma.task.findUnique({ where: { id, projectId } })`. -/
def findTask (db : DB) (taskId projectId : String) : Option Task :=
  db.tasks.find? (fun t => t.id == taskId && t.projectId == projectId)

/-- The assignee user ids of a task (`task.assignees.map(a => a.userId)`). -/
def assigneesOf (db : DB) (taskId : String) : List String :=
  (db.taskAssignees.filter (fun r => r.1 == taskId)).map (fun r => r.2)

/-- Whether a user holds a membership in the organization
(`memberships: { some: { organizationId, ... } }`). -/
def isOrgMember (db : DB) (organizationId userId : String) : Bool :=
  db.memberships.any (fun m => m.1 == organizationId && m.2 == userId)

/-- Append freshly created notification records to the store log. -/
def pushNotifications (db : DB) (ns : List Notification) : DB :=
  { db with notifications := db.notifications ++ ns }

/-- The notifications of one type addressed to one user in the log. -/
def notifsTo (db : DB) (userId ty : String) : List Notification :=
  db.notifications.filter (fun n => n.userId == userId && n.type == ty)

/-- Equality of embedded results is decidable (used by concrete
witnesses). -/
instance {α β : Type} [DecidableEq α] [DecidableEq β] : DecidableEq (Except α β) :=
  fun x y =>
  match x, y with
  | .error a, .error b => decidable_of_iff (a = b) (by simp)
  | .ok a, .ok b => decidable_of_iff (a = b) (by simp)
  | .error _, .ok _ => isFalse (by simp)
  | .ok _, .error _ => isFalse (by simp)

/-- The distinct failure exits of `updateTask` / `reorderTasks`; each
constructor stands for one `throw new Error(...)` site of the source (and
`invalidDateValue` for the Prisma client rejecting an Invalid Date at the
task write). `assigneeRestricted` carries the offending field names that
the thrown message lists. -/
inductive UErr where
  | projectNotFound
  | taskNotFound
  | invalidAssignees
  | assigneeRestricted (fields : List String)
  | noPermission
  | invalidDateValue
  | invalidReorderIds
deriving DecidableEq, Repr

/-- Gregorian leap-year test. -/
def isLeapYear (y : Nat) : Bool :=
  (y % 4 == 0 && y % 100 != 0) || y % 400 == 0

/-- Days in a month of the proleptic Gregorian calendar. -/
def daysInMonth (y m : Nat) : Nat :=
  if m == 2 then (if isLeapYear y then 29 else 28)
  else if m == 4 || m == 6 || m == 9 || m == 11 then 30
  else 31

/-- Split a character list at every dash (the behaviour of
`String.splitOn "-"`, written structurally). -/
def splitOnDash : List Char → List (List Char)
  | [] => [[]]
  | c :: rest =>
    match splitOnDash rest with
    | [] => [[c]]
    | g :: gs => if c = '-' then [] :: g :: gs else (c :: g) :: gs

/-- Numeric value of a digit sequence, as `String.toNat?` computes it:
every character must be a digit and the empty sequence is rejected. -/
def digitsVal (cs : List Char) : Option Nat :=
  if cs.isEmpty then none
  else cs.foldl (fun acc c =>
    match acc with
    | none => none
    | some n => if c.isDigit then some (n * 10 + (c.toNat - 48)) else none) (some 0)

/-- Model of the date-validity boundary of the source: the API sends dates
as `YYYY-MM-DD` strings, `new Date(s)` turns a string that denotes no real
calendar date into an Invalid Date, and the Prisma client throws on an
Invalid Date at the write. Restricted to the dash-separated numeric form
the API uses: exactly the strings denoting a real calendar date parse. -/
def parseCalendarDate (s : String) : Option (Nat × Nat × Nat) :=
  match (splitOnDash s.toList).map digitsVal with
  | [some y, some m, some d] =>
    if 1 ≤ m && m ≤ 12 && 1 ≤ d && d ≤ daysInMonth y m then some (y, m, d) else none
  | _ => none

/-- The test applied to a date field at the task write (source:
`finalUpdateData.startDate ? new Date(finalUpdateData.startDate) : undefined`):
a present, truthy (non-empty) string that does not parse makes the write
throw; an absent or empty (falsy) value is passed as `undefined`. -/
def badDate : Option String → Bool
  | none => false
  | some s => s != "" && (parseCalendarDate s).isNone

/-- A task-update request body, after the controller filtered it down to
the nine `allowedFields` (`taskController.updateTask`): `some` marks a
field present in the request. -/
structure UpdateData where
  title : Option String := none
  description : Option String := none
  assigneesIds : Option (List String) := none
  status : Option String := none
  startDate : Option String := none
  endDate : Option String := none
  expense : Option Int := none
  color : Option String := none
  displayOrder : Option Int := none
deriving DecidableEq, Repr

/-- `Object.keys(updateData)` — the present field names, listed in the
controller's `allowedFields` order. -/
def UpdateData.presentFields (u : UpdateData) : List String :=
  (if u.title.isSome then ["title"] else []) ++
  (if u.description.isSome then ["description"] else []) ++
  (if u.assigneesIds.isSome then ["assigneesIds"] else []) ++
  (if u.status.isSome then ["status"] else []) ++
  (if u.startDate.isSome then ["startDate"] else []) ++
  (if u.endDate.isSome then ["endDate"] else []) ++
  (if u.expense.isSome then ["expense"] else []) ++
  (if u.color.isSome then ["color"] else []) ++
  (if u.displayOrder.isSome then ["displayOrder"] else [])

/-- Text of the assigned-to-task notification. -/
def assignedText (taskTitle projectTitle : String) : String :=
  "You have been assigned to task \"" ++ taskTitle ++ "\" in project \"" ++ projectTitle ++ "\"."

/-- Text of the unassigned-from-task notification. -/
def unassignedText (taskTitle projectTitle : String) : String :=
  "You have been unassigned from task \"" ++ taskTitle ++ "\" in project \"" ++ projectTitle ++ "\"."

/-- Text of the status-change notification, carrying old and new status. -/
def statusChangeText (taskTitle oldStatus newStatus projectTitle : String) : String :=
  "Task \"" ++ taskTitle ++ "\" status changed from \"" ++ oldStatus ++ "\" to \"" ++
    newStatus ++ "\" in project \"" ++ projectTitle ++ "\"."

/-- The deep link attached to the task notifications. -/
def taskLink (projectId taskId : String) : String :=
  "/projects/" ++ projectId ++ "/tasks/" ++ taskId

/-- The assignment notification sent to a newly added assignee. -/
def assignedNotif (task : Task) (project : Project) (pid tid a : String) : Notification :=
  { userId := a, type := "assignment", text := assignedText task.title project.title,
    link := some (taskLink pid tid) }

/-- The assignment notification sent to a removed assignee. -/
def unassignedNotif (task : Task) (project : Project) (pid tid a : String) : Notification :=
  { userId := a, type := "assignment", text := unassignedText task.title project.title,
    link := some (taskLink pid tid) }

/-- The status-change notification sent to one recipient. -/
def statusNotif (updatedTask : Task) (oldStatus : String) (project : Project)
    (pid tid u : String) : Notification :=
  { userId := u, type := "status_change",
    text := statusChangeText updatedTask.title oldStatus updatedTask.status project.title,
    link := some (taskLink pid tid) }

/-- `[...new Set(l)]` — deduplication keeping first occurrences, as the
JavaScript `Set` iterator does. -/
def jsSetDedup : List String → List String
  | [] => []
  | a :: l => a :: jsSetDedup (l.filter (fun b => b != a))
termination_by l => l.length
decreasing_by simp_wf; exact Nat.lt_succ_of_le (List.length_filter_le _ _)

/-- Application of the scalar part of the update at the `prisma.task.update`
call (source lines 301–307): each present field overwrites the row
(`assigneesIds` was destructured away before this point); a present but
empty (falsy) date string is passed as `undefined`, so the stored date is
kept. -/
def applyScalarUpdate (t : Task) (u : UpdateData) : Task :=
  { t with
    title := u.title.getD t.title
    description := match u.description with | some d => some d | none => t.description
    status := u.status.getD t.status
    startDate := match u.startDate with
      | some s => if s == "" then t.startDate else s
      | none => t.startDate
    endDate := match u.endDate with
      | some s => if s == "" then t.endDate else s
      | none => t.endDate
    expense := match u.expense with | some e => some e | none => t.expense
    color := u.color.getD t.color
    displayOrder := u.displayOrder.getD t.displayOrder }

/-- The rows written by `prisma.task.update({ where: { id, projectId } })`:
the matching row gets the scalar update applied. -/
def taskWrite (tasks : List Task) (fd : UpdateData) (projectId taskId : String) : List Task :=
  tasks.map (fun t =>
    if t.id == taskId && t.projectId == projectId then applyScalarUpdate t fd else t)

/-- The status-change recipient set: current assignees and project team
leads, minus the acting user, deduplicated keeping first occurrences. -/
def statusRecipients (assignees leads : List String) (currentUserId : String) : List String :=
  jsSetDedup ((assignees ++ leads).filter (fun i => i != currentUserId))

/-- The tail of `updateTask` after the permission branch (source lines
300–414): the `prisma.task.update` call — where an invalid truthy date
makes the Prisma client throw before the row is written — followed by the
status-change notification fan-out over the task's current (post-update)
assignees and the project team leads, minus the acting user. -/
def performScalarUpdate (db : DB) (project : Project) (task : Task)
    (oldStatus : String) (fd : UpdateData) (currentUserId projectId taskId : String) :
    DB × Except UErr Task :=
  if badDate fd.startDate || badDate fd.endDate then (db, .error .invalidDateValue)
  else
    let updatedTask := applyScalarUpdate task fd
    let db1 := { db with tasks := taskWrite db.tasks fd projectId taskId }
    if updatedTask.status != oldStatus then
      (pushNotifications db1
        ((statusRecipients (assigneesOf db1 taskId) project.projectTeamLeads currentUserId).map
          (statusNotif updatedTask oldStatus project projectId taskId)),
       .ok updatedTask)
    else (db1, .ok updatedTask)

/-- The store after the delete-then-insert assignee-replacement transaction
and its assignment-change fan-out: the join rows of the task are replaced
by the requested ids; each added id gets an assigned notification, each
removed id an unassigned notification (source lines 259–287). -/
def afterAssigneeReplace (db : DB) (project : Project) (task : Task)
    (projectId taskId : String) (assigneesIds oldAssignees : List String) : DB :=
  { db with
    taskAssignees := db.taskAssignees.filter (fun r => r.1 != taskId) ++
      assigneesIds.map (fun userId => (taskId, userId)),
    notifications := db.notifications ++
      ((assigneesIds.filter (fun i => !(oldAssignees.contains i))).map
        (assignedNotif task project projectId taskId) ++
       (oldAssignees.filter (fun i => !(assigneesIds.contains i))).map
        (unassignedNotif task project projectId taskId)) }

/-- The Admin/SuperAdmin/project-team-leader branch of `updateTask`
(source lines 235–288): optional assignee-set replacement — membership
validation of every requested id, the delete-then-insert transaction on the
join table, one assignment notification per added id and per removed id —
then the scalar update. -/
def adminBranch (db : DB) (project : Project) (task : Task)
    (organizationId projectId taskId currentUserId : String)
    (updateData : UpdateData) (oldAssignees : List String) : DB × Except UErr Task :=
  match updateData.assigneesIds with
  | none =>
    performScalarUpdate db project task task.status updateData currentUserId projectId taskId
  | some assigneesIds =>
    let existingUsers := db.users.filter
      (fun u => assigneesIds.contains u && isOrgMember db organizationId u)
    if existingUsers.length != assigneesIds.length then (db, .error .invalidAssignees)
    else
      performScalarUpdate
        (afterAssigneeReplace db project task projectId taskId assigneesIds oldAssignees)
        project task task.status
        { updateData with assigneesIds := none } currentUserId projectId taskId

/-- `updateTask` from `src/services/taskService.js` (lines 198–414): scope
lookups, the permission branch, assignee replacement with its fan-out, the
scalar task write and the status-change fan-out. The final store is
returned alongside the result; after a thrown error the store keeps
whatever writes had already committed. -/
def updateTask (db : DB)
    (taskId projectId organizationId currentUserId currentUserRole : String)
    (updateData : UpdateData) : DB × Except UErr Task :=
  match findProject db projectId organizationId with
  | none => (db, .error .projectNotFound)
  | some project =>
    match findTask db taskId projectId with
    | none => (db, .error .taskNotFound)
    | some task =>
      let oldAssignees := assigneesOf db taskId
      let isAssignee := oldAssignees.contains currentUserId
      let isProjectTeamLeader :=
        project.projectTeamLeads.contains currentUserId && currentUserRole == "TEAM_LEADER"
      let isAdmin := currentUserRole == "ADMIN" || currentUserRole == "SUPER_ADMIN"
      if isAdmin || isProjectTeamLeader then
        adminBranch db project task organizationId projectId taskId currentUserId
          updateData oldAssignees
      else if isAssignee then
        let restrictedUpdates := updateData.presentFields.filter (fun k => k != "status")
        if restrictedUpdates.length > 0 then
          (db, .error (.assigneeRestricted restrictedUpdates))
        else
          performScalarUpdate db project task task.status { status := updateData.status }
            currentUserId projectId taskId
      else (db, .error .noPermission)

/-- `reorderTasks` from `src/services/taskService.js` (lines 526–558):
validate that the listed ids match existing tasks of the project, then set
`displayOrder := index` for each id in order inside one transaction. -/
def reorderTasks (db : DB) (projectId organizationId : String)
    (taskIdsInOrder : List String) : DB × Except UErr Unit :=
  match findProject db projectId organizationId with
  | none => (db, .error .projectNotFound)
  | some _ =>
    let existingTasks := db.tasks.filter
      (fun t => taskIdsInOrder.contains t.id && t.projectId == projectId)
    if existingTasks.length != taskIdsInOrder.length then (db, .error .invalidReorderIds)
    else
      (taskIdsInOrder.enum.foldl (fun d (p : Nat × String) =>
        { d with tasks := d.tasks.map (fun t =>
            if t.id == p.2 then { t with displayOrder := (p.1 : Int) } else t) }) db,
       .ok ())

/-- The message text the source throws for each failure exit (for
`assigneeRestricted` the joined offending field list the message embeds;
quotes around the word status are elided from the transcription; for
`invalidDateValue` the Prisma client text). -/
def UErr.message : UErr → String
  | .projectNotFound => "Project not found or does not belong to your organization."
  | .taskNotFound => "Task not found in this project."
  | .invalidAssignees => "One or more specified assignees are invalid or not members of this organization."
  | .assigneeRestricted fields =>
    "Assignees can only update status. Attempted to update: " ++ String.intercalate ", " fields ++ "."
  | .noPermission => "You do not have permission to update this task."
  | .invalidDateValue => "Provided Date object is invalid."
  | .invalidReorderIds => "One or more task IDs are invalid or do not belong to this project."

/-- Concrete project fixture used by the witnesses. -/
def proj0 : Project :=
  { id := "p1", organizationId := "org1", title := "Proj", projectTeamLeads := ["lead1"] }

/-- Concrete task fixtures used by the witnesses. -/
def task1 : Task :=
  { id := "t1", projectId := "p1", title := "TaskOne", status := stPlanned,
    startDate := "2024-01-01", endDate := "2024-02-01", color := "blue", displayOrder := 0 }

def task2 : Task :=
  { id := "t2", projectId := "p1", title := "TaskTwo", status := stPlanned,
    startDate := "2024-01-01", endDate := "2024-02-01", color := "red", displayOrder := 1 }

def task3 : Task :=
  { id := "t3", projectId := "p1", title := "TaskThree", status := stPlanned,
    startDate := "2024-01-01", endDate := "2024-02-01", color := "green", displayOrder := 2 }

/-- A concrete store used by the witnesses: one organization `org1`, one
project `p1` led by `lead1`, three tasks, task `t1` assigned to `u1` and
`u2`. -/
def db0 : DB :=
  { projects := [proj0],
    tasks := [task1, task2, task3],
    taskAssignees := [("t1", "u1"), ("t1", "u2")],
    users := ["u1", "u2", "u3", "lead1", "admin1"],
    memberships := [("org1", "u1"), ("org1", "u2"), ("org1", "u3"),
                    ("org1", "lead1"), ("org1", "admin1")] }

theorem jsSetDedup_cons (a : String) (l : List String) :
    jsSetDedup (a :: l) = a :: jsSetDedup (l.filter (fun b => b != a)) := by
  rw [jsSetDedup]

theorem mem_jsSetDedup (l : List String) (a : String) : a ∈ jsSetDedup l ↔ a ∈ l := by
  induction l using jsSetDedup.induct with
  | case1 => simp [jsSetDedup]
  | case2 b l ih =>
    rw [jsSetDedup_cons]
    by_cases hab : a = b
    · subst hab; simp
    · simp only [List.mem_cons, ih, List.mem_filter, bne_iff_ne, ne_eq]
      constructor
      · rintro (h | ⟨h, -⟩)
        · exact absurd h hab
        · exact Or.inr h
      · rintro (h | h)
        · exact absurd h hab
        · exact Or.inr ⟨h, hab⟩

theorem nodup_jsSetDedup (l : List String) : (jsSetDedup l).Nodup := by
  induction l using jsSetDedup.induct with
  | case1 => simp [jsSetDedup]
  | case2 b l ih =>
    rw [jsSetDedup_cons]
    refine List.nodup_cons.mpr ⟨fun hmem => ?_, ih⟩
    rcases List.mem_filter.mp ((mem_jsSetDedup _ _).mp hmem) with ⟨-, hne⟩
    simp at hne

theorem filter_beq_of_not_mem (l : List String) (u : String) (h : u ∉ l) :
    l.filter (fun a => a == u) = [] := by
  induction l with
  | nil => rfl
  | cons a l ih =>
    have hau : ¬ (a = u) := fun hau => h (hau ▸ List.mem_cons_self a l)
    have : u ∉ l := fun hm => h (List.mem_cons_of_mem a hm)
    simp [List.filter_cons, hau, ih this]

theorem filter_beq_of_nodup_mem (l : List String) (u : String) (hnd : l.Nodup)
    (h : u ∈ l) : l.filter (fun a => a == u) = [u] := by
  induction l with
  | nil => cases h
  | cons a l ih =>
    rcases List.nodup_cons.mp hnd with ⟨hna, hndl⟩
    rcases List.mem_cons.mp h with h | h
    · subst h
      have hrest : l.filter (fun x => x == u) = [] := filter_beq_of_not_mem l u hna
      simp [List.filter_cons, hrest]
    · have hau : ¬ (a = u) := fun hau => hna (hau ▸ h)
      simp [List.filter_cons, hau, ih hndl h]

theorem filter_notifs_map (l : List String) (u ty ty' txt : String) (lnk : Option String) :
    ((l.map (fun a =>
        ({ userId := a, type := ty', text := txt, link := lnk } : Notification))).filter
      (fun n => n.userId == u && n.type == ty)) =
    (if ty' = ty then
      (l.filter (fun a => a == u)).map
        (fun a => ({ userId := a, type := ty', text := txt, link := lnk } : Notification))
    else []) := by
  induction l with
  | nil => simp
  | cons a l ih =>
    by_cases hty : ty' = ty
    · subst hty
      by_cases hau : a = u
      · simp [List.filter_cons, hau, ih]
      · simp [List.filter_cons, hau, ih]
    · simp [List.filter_cons, hty, ih]

theorem filter_fst_of_map (tid : String) (ids : List String) :
    ((ids.map (fun u => (tid, u))).filter (fun r => r.1 == tid)) =
      ids.map (fun u => (tid, u)) := by
  induction ids with
  | nil => rfl
  | cons a l ih => simp [List.filter_cons, ih]

theorem filter_fst_of_filter_ne (rows : List (String × String)) (tid : String) :
    (((rows.filter (fun r => r.1 != tid)).filter (fun r => r.1 == tid))) = [] := by
  induction rows with
  | nil => rfl
  | cons a l ih =>
    by_cases h : a.1 = tid
    · simp [List.filter_cons, h, ih]
    · simp [List.filter_cons, h, ih]

/-- After the delete-then-insert transaction, the assignee set of the task
is exactly the requested id list. -/
theorem assigneesOf_replace (db : DB) (tid : String) (ids : List String) :
    assigneesOf { db with taskAssignees :=
      db.taskAssignees.filter (fun r => r.1 != tid) ++ ids.map (fun u => (tid, u)) } tid
    = ids := by
  simp only [assigneesOf, List.filter_append, filter_fst_of_filter_ne,
    filter_fst_of_map, List.nil_append, List.map_map]
  simp

/-- The scalar write ignores the `assigneesIds` component. -/
theorem applyScalarUpdate_no_assignees (t : Task) (u : UpdateData) :
    applyScalarUpdate t { u with assigneesIds := none } = applyScalarUpdate t u := rfl

theorem assigneesOf_set_tasks (db : DB) (x : List Task) (tid : String) :
    assigneesOf { db with tasks := x } tid = assigneesOf db tid := rfl

theorem performScalarUpdate_drop_ids (db : DB) (project : Project) (task : Task)
    (old : String) (ud : UpdateData) (actor pid tid : String) :
    performScalarUpdate db project task old { ud with assigneesIds := none } actor pid tid =
      performScalarUpdate db project task old ud actor pid tid := rfl

theorem performScalarUpdate_badDate (db : DB) (project : Project) (task : Task)
    (old : String) (fd : UpdateData) (actor pid tid : String)
    (h : badDate fd.startDate = true ∨ badDate fd.endDate = true) :
    performScalarUpdate db project task old fd actor pid tid =
      (db, .error .invalidDateValue) := by
  rcases h with h | h <;> simp [performScalarUpdate, h]

theorem performScalarUpdate_ok_changed (db : DB) (project : Project) (task : Task)
    (old : String) (fd : UpdateData) (actor pid tid : String)
    (h1 : badDate fd.startDate = false) (h2 : badDate fd.endDate = false)
    (hch : (applyScalarUpdate task fd).status ≠ old) :
    performScalarUpdate db project task old fd actor pid tid =
      (pushNotifications { db with tasks := taskWrite db.tasks fd pid tid }
        ((statusRecipients (assigneesOf db tid) project.projectTeamLeads actor).map
          (statusNotif (applyScalarUpdate task fd) old project pid tid)),
       .ok (applyScalarUpdate task fd)) := by
  simp only [performScalarUpdate]
  rw [if_neg (by simp [h1, h2])]
  rw [if_pos (bne_iff_ne.mpr hch)]
  rfl

theorem performScalarUpdate_ok_unchanged (db : DB) (project : Project) (task : Task)
    (old : String) (fd : UpdateData) (actor pid tid : String)
    (h1 : badDate fd.startDate = false) (h2 : badDate fd.endDate = false)
    (hch : (applyScalarUpdate task fd).status = old) :
    performScalarUpdate db project task old fd actor pid tid =
      ({ db with tasks := taskWrite db.tasks fd pid tid },
       .ok (applyScalarUpdate task fd)) := by
  simp only [performScalarUpdate]
  rw [if_neg (by simp [h1, h2])]
  rw [if_neg (by simp [hch])]

theorem adminBranch_no_ids (db : DB) (project : Project) (task : Task)
    (oid pid tid actor : String) (ud : UpdateData) (old : List String)
    (h : ud.assigneesIds = none) :
    adminBranch db project task oid pid tid actor ud old =
      performScalarUpdate db project task task.status ud actor pid tid := by
  simp only [adminBranch, h]

theorem adminBranch_invalid_ids (db : DB) (project : Project) (task : Task)
    (oid pid tid actor : String) (ud : UpdateData) (old ids : List String)
    (h : ud.assigneesIds = some ids)
    (hval : (db.users.filter
      (fun u => ids.contains u && isOrgMember db oid u)).length ≠ ids.length) :
    adminBranch db project task oid pid tid actor ud old =
      (db, .error .invalidAssignees) := by
  simp only [adminBranch, h]
  rw [if_pos (bne_iff_ne.mpr hval)]

theorem adminBranch_valid_ids (db : DB) (project : Project) (task : Task)
    (oid pid tid actor : String) (ud : UpdateData) (old ids : List String)
    (h : ud.assigneesIds = some ids)
    (hval : (db.users.filter
      (fun u => ids.contains u && isOrgMember db oid u)).length = ids.length) :
    adminBranch db project task oid pid tid actor ud old =
      performScalarUpdate (afterAssigneeReplace db project task pid tid ids old)
        project task task.status ud actor pid tid := by
  rw [← performScalarUpdate_drop_ids]
  simp only [adminBranch, h]
  rw [if_neg (fun hbne => (bne_iff_ne.mp hbne) hval)]

theorem updateTask_admin (db : DB) (tid pid oid actor role : String) (ud : UpdateData)
    (project : Project) (task : Task)
    (hp : findProject db pid oid = some project)
    (ht : findTask db tid pid = some task)
    (hrole : role = "ADMIN" ∨ role = "SUPER_ADMIN" ∨
      (actor ∈ project.projectTeamLeads ∧ role = "TEAM_LEADER")) :
    updateTask db tid pid oid actor role ud =
      adminBranch db project task oid pid tid actor ud (assigneesOf db tid) := by
  have hcond : ((role == "ADMIN" || role == "SUPER_ADMIN") ||
      (project.projectTeamLeads.contains actor && role == "TEAM_LEADER")) = true := by
    rcases hrole with h | h | ⟨h1, h2⟩
    · subst h; simp
    · subst h; simp
    · subst h2; simp [h1]
  simp only [updateTask, hp, ht]
  rw [if_pos hcond]

theorem updateTask_not_admin_cond (role actor : String) (project : Project)
    (hnadmin : role ≠ "ADMIN" ∧ role ≠ "SUPER_ADMIN" ∧
      ¬(actor ∈ project.projectTeamLeads ∧ role = "TEAM_LEADER")) :
    ((role == "ADMIN" || role == "SUPER_ADMIN") ||
      (project.projectTeamLeads.contains actor && role == "TEAM_LEADER")) = false := by
  rcases hnadmin with ⟨h1, h2, h3⟩
  by_cases hTL : role = "TEAM_LEADER"
  · have hmem : actor ∉ project.projectTeamLeads := fun hm => h3 ⟨hm, hTL⟩
    simp [h1, h2, hmem]
  · simp [h1, h2, hTL]

theorem updateTask_assignee_restricted (db : DB) (tid pid oid actor role : String)
    (ud : UpdateData) (project : Project) (task : Task)
    (hp : findProject db pid oid = some project)
    (ht : findTask db tid pid = some task)
    (hnadmin : role ≠ "ADMIN" ∧ role ≠ "SUPER_ADMIN" ∧
      ¬(actor ∈ project.projectTeamLeads ∧ role = "TEAM_LEADER"))
    (hassign : actor ∈ assigneesOf db tid)
    (hrestricted : ud.presentFields.filter (fun k => k != "status") ≠ []) :
    updateTask db tid pid oid actor role ud =
      (db, .error (.assigneeRestricted
        (ud.presentFields.filter (fun k => k != "status")))) := by
  have hcond := updateTask_not_admin_cond role actor project hnadmin
  have hlen : 0 < (ud.presentFields.filter (fun k => k != "status")).length :=
    List.length_pos.mpr hrestricted
  simp only [updateTask, hp, ht]
  rw [if_neg (by rw [hcond]; simp)]
  rw [if_pos (by simp [hassign])]
  rw [if_pos hlen]

theorem updateTask_assignee_status_only (db : DB) (tid pid oid actor role : String)
    (ud : UpdateData) (project : Project) (task : Task)
    (hp : findProject db pid oid = some project)
    (ht : findTask db tid pid = some task)
    (hnadmin : role ≠ "ADMIN" ∧ role ≠ "SUPER_ADMIN" ∧
      ¬(actor ∈ project.projectTeamLeads ∧ role = "TEAM_LEADER"))
    (hassign : actor ∈ assigneesOf db tid)
    (hrestricted : ud.presentFields.filter (fun k => k != "status") = []) :
    updateTask db tid pid oid actor role ud =
      performScalarUpdate db project task task.status { status := ud.status }
        actor pid tid := by
  have hcond := updateTask_not_admin_cond role actor project hnadmin
  simp only [updateTask, hp, ht]
  rw [if_neg (by rw [hcond]; simp)]
  rw [if_pos (by simp [hassign])]
  rw [if_neg (by simp [hrestricted])]

theorem updateTask_no_permission (db : DB) (tid pid oid actor role : String)
    (ud : UpdateData) (project : Project) (task : Task)
    (hp : findProject db pid oid = some project)
    (ht : findTask db tid pid = some task)
    (hnadmin : role ≠ "ADMIN" ∧ role ≠ "SUPER_ADMIN" ∧
      ¬(actor ∈ project.projectTeamLeads ∧ role = "TEAM_LEADER"))
    (hnassign : actor ∉ assigneesOf db tid) :
    updateTask db tid pid oid actor role ud = (db, .error .noPermission) := by
  have hcond := updateTask_not_admin_cond role actor project hnadmin
  simp only [updateTask, hp, ht]
  rw [if_neg (by rw [hcond]; simp)]
  rw [if_neg (by simp [hnassign])]

/-- C1: for every non-empty task list containing at least one `Stuck`
status, `calculateProjectStatus` returns status `AtRisk`, regardless of the
completion percentage; in particular `[Completed, Completed, Stuck]` yields
`AtRisk` with completion percentage 67. -/
theorem c1_stuck_status_dominates (tasks : List Task) (hne : tasks ≠ [])
    (hstuck : ∃ t ∈ tasks, t.status = stStuck) :
    (calculateProjectStatus tasks).status = stAtRisk ∧
      calculateProjectStatus
          [{ status := stCompleted }, { status := stCompleted }, { status := stStuck }] =
        { status := stAtRisk, completionPercentage := 67 } := by
  refine ⟨?_, by decide⟩
  have hlen : ¬ tasks.length = 0 := by simpa [List.length_eq_zero] using hne
  have hpos : 0 < (tasks.filter (fun t => t.status == stStuck)).length := by
    rw [List.length_pos_iff_exists_mem]
    rcases hstuck with ⟨x, hx, hs⟩
    exact ⟨x, List.mem_filter.mpr ⟨hx, by simpa using hs⟩⟩
  simp [calculateProjectStatus, hlen, hpos]

/-- Witness for C1 at a concrete input. -/
theorem c1_stuck_status_dominates_witness :
    (calculateProjectStatus [({ status := stStuck } : Task)]).status = stAtRisk ∧
      calculateProjectStatus
          [{ status := stCompleted }, { status := stCompleted }, { status := stStuck }] =
        { status := stAtRisk, completionPercentage := 67 } :=
  c1_stuck_status_dominates [({ status := stStuck } : Task)] (by decide)
    ⟨({ status := stStuck } : Task), by simp, rfl⟩

theorem assigneesOf_afterAssigneeReplace (db : DB) (project : Project) (task : Task)
    (pid tid : String) (ids old : List String) :
    assigneesOf (afterAssigneeReplace db project task pid tid ids old) tid = ids := by
  simp only [afterAssigneeReplace, assigneesOf, List.filter_append,
    filter_fst_of_filter_ne, filter_fst_of_map, List.nil_append, List.map_map]
  simp

/-- C3: when the actor is Admin or SuperAdmin, or a TeamLeader listed as a
team lead of the task's own project, the whole requested field set (any
subset of the nine updatable fields: title, description, assignee set,
status, startDate, endDate, expense, color, displayOrder) is permitted:
the update is never rejected with a permission error, and — when the
requested assignee set and dates pass validation — it succeeds with
exactly the requested fields applied, including a full assignee
replacement. -/
theorem c3_admin_or_lead_all_fields (db : DB) (tid pid oid actor role : String)
    (ud : UpdateData) (project : Project) (task : Task)
    (hp : findProject db pid oid = some project)
    (ht : findTask db tid pid = some task)
    (hrole : role = "ADMIN" ∨ role = "SUPER_ADMIN" ∨
      (actor ∈ project.projectTeamLeads ∧ role = "TEAM_LEADER")) :
    (∀ fs, (updateTask db tid pid oid actor role ud).2 ≠ .error (.assigneeRestricted fs)) ∧
    ((updateTask db tid pid oid actor role ud).2 ≠ .error .noPermission) ∧
    ((∀ ids, ud.assigneesIds = some ids →
        (db.users.filter (fun u => ids.contains u && isOrgMember db oid u)).length = ids.length) →
      badDate ud.startDate = false → badDate ud.endDate = false →
      (updateTask db tid pid oid actor role ud).2 = .ok (applyScalarUpdate task ud) ∧
      (updateTask db tid pid oid actor role ud).1.tasks = taskWrite db.tasks ud pid tid ∧
      (∀ ids, ud.assigneesIds = some ids →
        assigneesOf (updateTask db tid pid oid actor role ud).1 tid = ids)) := by
  have hred := updateTask_admin db tid pid oid actor role ud project task hp ht hrole
  cases hids : ud.assigneesIds with
  | none =>
    rw [adminBranch_no_ids db project task oid pid tid actor ud (assigneesOf db tid) hids]
      at hred
    by_cases hd1 : badDate ud.startDate = true
    · rw [performScalarUpdate_badDate db project task task.status ud actor pid tid
        (Or.inl hd1)] at hred
      rw [hred]
      exact ⟨fun fs => by simp, by simp, fun _ h1 _ => by simp [h1] at hd1⟩
    · by_cases hd2 : badDate ud.endDate = true
      · rw [performScalarUpdate_badDate db project task task.status ud actor pid tid
          (Or.inr hd2)] at hred
        rw [hred]
        exact ⟨fun fs => by simp, by simp, fun _ _ h2 => by simp [h2] at hd2⟩
      · have h1 : badDate ud.startDate = false := by
          revert hd1; cases badDate ud.startDate <;> simp
        have h2 : badDate ud.endDate = false := by
          revert hd2; cases badDate ud.endDate <;> simp
        by_cases hch : (applyScalarUpdate task ud).status = task.status
        · rw [performScalarUpdate_ok_unchanged db project task task.status ud actor pid tid
            h1 h2 hch] at hred
          rw [hred]
          exact ⟨fun fs => by simp, by simp,
            fun _ _ _ => ⟨rfl, rfl, fun ids h => by cases h⟩⟩
        · rw [performScalarUpdate_ok_changed db project task task.status ud actor pid tid
            h1 h2 hch] at hred
          rw [hred]
          exact ⟨fun fs => by simp, by simp,
            fun _ _ _ => ⟨rfl, rfl, fun ids h => by cases h⟩⟩
  | some ids0 =>
    by_cases hval : (db.users.filter
        (fun u => ids0.contains u && isOrgMember db oid u)).length = ids0.length
    · rw [adminBranch_valid_ids db project task oid pid tid actor ud (assigneesOf db tid)
        ids0 hids hval] at hred
      by_cases hd1 : badDate ud.startDate = true
      · rw [performScalarUpdate_badDate _ project task task.status ud actor pid tid
          (Or.inl hd1)] at hred
        rw [hred]
        exact ⟨fun fs => by simp, by simp, fun _ h1 _ => by simp [h1] at hd1⟩
      · by_cases hd2 : badDate ud.endDate = true
        · rw [performScalarUpdate_badDate _ project task task.status ud actor pid tid
            (Or.inr hd2)] at hred
          rw [hred]
          exact ⟨fun fs => by simp, by simp, fun _ _ h2 => by simp [h2] at hd2⟩
        · have h1 : badDate ud.startDate = false := by
            revert hd1; cases badDate ud.startDate <;> simp
          have h2 : badDate ud.endDate = false := by
            revert hd2; cases badDate ud.endDate <;> simp
          by_cases hch : (applyScalarUpdate task ud).status = task.status
          · rw [performScalarUpdate_ok_unchanged _ project task task.status ud actor pid tid
              h1 h2 hch] at hred
            rw [hred]
            refine ⟨fun fs => by simp, by simp, fun _ _ _ => ⟨rfl, rfl, fun ids h => ?_⟩⟩
            obtain rfl : ids0 = ids := Option.some.inj h
            exact assigneesOf_afterAssigneeReplace db project task pid tid ids0
              (assigneesOf db tid)
          · rw [performScalarUpdate_ok_changed _ project task task.status ud actor pid tid
              h1 h2 hch] at hred
            rw [hred]
            refine ⟨fun fs => by simp, by simp, fun _ _ _ => ⟨rfl, rfl, fun ids h => ?_⟩⟩
            obtain rfl : ids0 = ids := Option.some.inj h
            exact assigneesOf_afterAssigneeReplace db project task pid tid ids0
              (assigneesOf db tid)
    · rw [adminBranch_invalid_ids db project task oid pid tid actor ud (assigneesOf db tid)
        ids0 hids hval] at hred
      rw [hred]
      exact ⟨fun fs => by simp, by simp, fun hv _ _ => absurd (hv ids0 rfl) hval⟩

/-- C4: an actor who is neither Admin/SuperAdmin nor a TeamLeader leading
the task's project but is a current assignee may change only `status`: any
other requested field makes the update fail with the permission error
naming exactly the offending field names, with the store untouched; a
request containing only `status` succeeds; an actor with none of these
relationships always fails with the permission error. -/
theorem c4_assignee_restriction (db : DB) (tid pid oid actor role : String)
    (ud : UpdateData) (project : Project) (task : Task)
    (hp : findProject db pid oid = some project)
    (ht : findTask db tid pid = some task)
    (hnadmin : role ≠ "ADMIN" ∧ role ≠ "SUPER_ADMIN" ∧
      ¬(actor ∈ project.projectTeamLeads ∧ role = "TEAM_LEADER")) :
    (actor ∈ assigneesOf db tid →
      (ud.presentFields.filter (fun k => k != "status") ≠ [] →
        updateTask db tid pid oid actor role ud =
          (db, .error (.assigneeRestricted
            (ud.presentFields.filter (fun k => k != "status"))))) ∧
      (∀ s, ud.status = some s → ud.presentFields.filter (fun k => k != "status") = [] →
        (updateTask db tid pid oid actor role ud).2 = .ok { task with status := s } ∧
        (updateTask db tid pid oid actor role ud).1.tasks =
          taskWrite db.tasks { status := some s } pid tid)) ∧
    (actor ∉ assigneesOf db tid →
      updateTask db tid pid oid actor role ud = (db, .error .noPermission)) := by
  constructor
  · intro hassign
    constructor
    · intro hrestricted
      exact updateTask_assignee_restricted db tid pid oid actor role ud project task
        hp ht hnadmin hassign hrestricted
    · intro s hs honly
      have hred := updateTask_assignee_status_only db tid pid oid actor role ud project task
        hp ht hnadmin hassign honly
      rw [hs] at hred
      have happ : applyScalarUpdate task { status := some s } = { task with status := s } := rfl
      by_cases hch : ({ task with status := s } : Task).status = task.status
      · rw [performScalarUpdate_ok_unchanged db project task task.status { status := some s }
          actor pid tid rfl rfl (happ.symm ▸ hch)] at hred
        rw [hred, happ]
        exact ⟨rfl, rfl⟩
      · rw [performScalarUpdate_ok_changed db project task task.status { status := some s }
          actor pid tid rfl rfl (happ.symm ▸ hch)] at hred
        rw [hred, happ]
        exact ⟨rfl, rfl⟩
  · intro hnassign
    exact updateTask_no_permission db tid pid oid actor role ud project task hp ht
      hnadmin hnassign

/-- Update request used by the C3 witness: full assignee replacement plus
a status change. -/
def ud3 : UpdateData := { assigneesIds := some ["u2", "u3"], status := some stCompleted }

/-- Witness for C3 at a concrete input: an Admin replaces the assignee set
and the status of task `t1`. -/
theorem c3_admin_or_lead_all_fields_witness :
    (∀ fs, (updateTask db0 "t1" "p1" "org1" "admin1" "ADMIN" ud3).2 ≠
      .error (.assigneeRestricted fs)) ∧
    ((updateTask db0 "t1" "p1" "org1" "admin1" "ADMIN" ud3).2 ≠ .error .noPermission) ∧
    ((∀ ids, ud3.assigneesIds = some ids →
        (db0.users.filter (fun u => ids.contains u && isOrgMember db0 "org1" u)).length =
          ids.length) →
      badDate ud3.startDate = false → badDate ud3.endDate = false →
      (updateTask db0 "t1" "p1" "org1" "admin1" "ADMIN" ud3).2 =
        .ok (applyScalarUpdate task1 ud3) ∧
      (updateTask db0 "t1" "p1" "org1" "admin1" "ADMIN" ud3).1.tasks =
        taskWrite db0.tasks ud3 "p1" "t1" ∧
      (∀ ids, ud3.assigneesIds = some ids →
        assigneesOf (updateTask db0 "t1" "p1" "org1" "admin1" "ADMIN" ud3).1 "t1" = ids)) :=
  c3_admin_or_lead_all_fields db0 "t1" "p1" "org1" "admin1" "ADMIN" ud3 proj0 task1
    rfl rfl (Or.inl rfl)

/-- Update request used by the C4 witness: a status change plus a title
change. -/
def ud4 : UpdateData := { title := some "x", status := some stCompleted }

/-- Witness for C4 at a concrete input: employee `u1`, an assignee of task
`t1` and not a project lead. -/
theorem c4_assignee_restriction_witness :
    ("u1" ∈ assigneesOf db0 "t1" →
      (ud4.presentFields.filter (fun k => k != "status") ≠ [] →
        updateTask db0 "t1" "p1" "org1" "u1" "EMPLOYEE" ud4 =
          (db0, .error (.assigneeRestricted
            (ud4.presentFields.filter (fun k => k != "status"))))) ∧
      (∀ s, ud4.status = some s → ud4.presentFields.filter (fun k => k != "status") = [] →
        (updateTask db0 "t1" "p1" "org1" "u1" "EMPLOYEE" ud4).2 =
          .ok { task1 with status := s } ∧
        (updateTask db0 "t1" "p1" "org1" "u1" "EMPLOYEE" ud4).1.tasks =
          taskWrite db0.tasks { status := some s } "p1" "t1")) ∧
    ("u1" ∉ assigneesOf db0 "t1" →
      updateTask db0 "t1" "p1" "org1" "u1" "EMPLOYEE" ud4 = (db0, .error .noPermission)) :=
  c4_assignee_restriction db0 "t1" "p1" "org1" "u1" "EMPLOYEE" ud4 proj0 task1 rfl rfl
    ⟨by decide, by decide, by decide⟩

@[simp] theorem assignedNotif_userId (task : Task) (project : Project) (pid tid a : String) :
    (assignedNotif task project pid tid a).userId = a := rfl

@[simp] theorem assignedNotif_type (task : Task) (project : Project) (pid tid a : String) :
    (assignedNotif task project pid tid a).type = "assignment" := rfl

@[simp] theorem unassignedNotif_userId (task : Task) (project : Project) (pid tid a : String) :
    (unassignedNotif task project pid tid a).userId = a := rfl

@[simp] theorem unassignedNotif_type (task : Task) (project : Project) (pid tid a : String) :
    (unassignedNotif task project pid tid a).type = "assignment" := rfl

@[simp] theorem statusNotif_userId (ut : Task) (old : String) (project : Project)
    (pid tid a : String) : (statusNotif ut old project pid tid a).userId = a := rfl

@[simp] theorem statusNotif_type (ut : Task) (old : String) (project : Project)
    (pid tid a : String) : (statusNotif ut old project pid tid a).type = "status_change" := rfl

theorem filter_map_notif_ne (l : List String) (f : String → Notification) (u ty : String)
    (hty : ∀ a, (f a).type ≠ ty) :
    (l.map f).filter (fun n => n.userId == u && n.type == ty) = [] := by
  induction l with
  | nil => rfl
  | cons a l ih => simp [List.filter_cons, hty, ih]

theorem filter_map_notif_eq (l : List String) (f : String → Notification) (u ty : String)
    (hid : ∀ a, (f a).userId = a) (hty : ∀ a, (f a).type = ty) :
    (l.map f).filter (fun n => n.userId == u && n.type == ty) =
      (l.filter (fun a => a == u)).map f := by
  induction l with
  | nil => rfl
  | cons a l ih =>
    by_cases hau : a = u
    · subst hau; simp [List.filter_cons, hid, hty, ih]
    · simp [List.filter_cons, hid, hty, hau, ih]

/-- Whatever the scalar write does (reject the date, write silently, or
fan out status-change notifications), it adds no assignment-type
notification to the log. -/
theorem performScalarUpdate_assignment_notifs (db : DB) (project : Project) (task : Task)
    (old : String) (fd : UpdateData) (actor pid tid u : String) :
    notifsTo (performScalarUpdate db project task old fd actor pid tid).1 u "assignment" =
      notifsTo db u "assignment" := by
  simp only [performScalarUpdate]
  by_cases hbd : (badDate fd.startDate || badDate fd.endDate) = true
  · rw [if_pos hbd]
  · rw [if_neg hbd]
    by_cases hch : ((applyScalarUpdate task fd).status != old) = true
    · rw [if_pos hch]
      simp only [notifsTo, pushNotifications, List.filter_append]
      rw [filter_map_notif_ne _ _ _ _ (fun a => by simp)]
      simp [notifsTo]
    · rw [if_neg hch]
      rfl

/-- C5: for a permitted assignee-set replacement with prior assignee set
`old` and requested set `new`, exactly the users in `new − old` each
receive one assigned notification, exactly the users in `old − new` each
receive one unassigned notification, and users in both sets receive no
assignment notification (log observed from empty). -/
theorem c5_assignment_diff (db : DB) (tid pid oid actor role : String)
    (ud : UpdateData) (project : Project) (task : Task) (ids : List String)
    (hlog : db.notifications = [])
    (hp : findProject db pid oid = some project)
    (ht : findTask db tid pid = some task)
    (hrole : role = "ADMIN" ∨ role = "SUPER_ADMIN" ∨
      (actor ∈ project.projectTeamLeads ∧ role = "TEAM_LEADER"))
    (hids : ud.assigneesIds = some ids)
    (hval : (db.users.filter
      (fun u => ids.contains u && isOrgMember db oid u)).length = ids.length)
    (hndOld : (assigneesOf db tid).Nodup) (hndNew : ids.Nodup) :
    ∀ u : String,
      (u ∈ ids → u ∉ assigneesOf db tid →
        notifsTo (updateTask db tid pid oid actor role ud).1 u "assignment" =
          [assignedNotif task project pid tid u]) ∧
      (u ∈ assigneesOf db tid → u ∉ ids →
        notifsTo (updateTask db tid pid oid actor role ud).1 u "assignment" =
          [unassignedNotif task project pid tid u]) ∧
      (u ∈ assigneesOf db tid → u ∈ ids →
        notifsTo (updateTask db tid pid oid actor role ud).1 u "assignment" = []) := by
  intro u
  have hred := updateTask_admin db tid pid oid actor role ud project task hp ht hrole
  rw [adminBranch_valid_ids db project task oid pid tid actor ud (assigneesOf db tid)
    ids hids hval] at hred
  have hbase :
      notifsTo (updateTask db tid pid oid actor role ud).1 u "assignment" =
        ((ids.filter (fun i => !((assigneesOf db tid).contains i))).filter
          (fun a => a == u)).map (assignedNotif task project pid tid) ++
        (((assigneesOf db tid).filter (fun i => !(ids.contains i))).filter
          (fun a => a == u)).map (unassignedNotif task project pid tid) := by
    rw [hred, performScalarUpdate_assignment_notifs]
    simp only [notifsTo, afterAssigneeReplace, hlog, List.nil_append, List.filter_append]
    rw [filter_map_notif_eq (ids.filter (fun i => !((assigneesOf db tid).contains i)))
        (assignedNotif task project pid tid) u "assignment" (fun a => rfl) (fun a => rfl),
      filter_map_notif_eq ((assigneesOf db tid).filter (fun i => !(ids.contains i)))
        (unassignedNotif task project pid tid) u "assignment" (fun a => rfl) (fun a => rfl)]
  have hndAdded : (ids.filter (fun i => !((assigneesOf db tid).contains i))).Nodup :=
    hndNew.filter _
  have hndRemoved : ((assigneesOf db tid).filter (fun i => !(ids.contains i))).Nodup :=
    hndOld.filter _
  have hmemAdded : ∀ v : String,
      v ∈ ids.filter (fun i => !((assigneesOf db tid).contains i)) ↔
        (v ∈ ids ∧ v ∉ assigneesOf db tid) := by
    intro v; simp [List.mem_filter]
  have hmemRemoved : ∀ v : String,
      v ∈ (assigneesOf db tid).filter (fun i => !(ids.contains i)) ↔
        (v ∈ assigneesOf db tid ∧ v ∉ ids) := by
    intro v; simp [List.mem_filter]
  refine ⟨fun hin hout => ?_, fun hin hout => ?_, fun hin1 hin2 => ?_⟩
  · rw [hbase,
      filter_beq_of_nodup_mem _ u hndAdded ((hmemAdded u).mpr ⟨hin, hout⟩),
      filter_beq_of_not_mem _ u (fun hmem => ((hmemRemoved u).mp hmem).2 hin)]
    rfl
  · rw [hbase,
      filter_beq_of_not_mem _ u (fun hmem => ((hmemAdded u).mp hmem).2 hin),
      filter_beq_of_nodup_mem _ u hndRemoved ((hmemRemoved u).mpr ⟨hin, hout⟩)]
    rfl
  · rw [hbase,
      filter_beq_of_not_mem _ u (fun hmem => ((hmemAdded u).mp hmem).2 hin1),
      filter_beq_of_not_mem _ u (fun hmem => ((hmemRemoved u).mp hmem).2 hin2)]
    rfl

/-- Witness for C5 at a concrete input: old assignees `{u1, u2}`, new
assignees `{u2, u3}`, observed at user `u3`. -/
theorem c5_assignment_diff_witness :
    ("u3" ∈ ["u2", "u3"] → "u3" ∉ assigneesOf db0 "t1" →
      notifsTo (updateTask db0 "t1" "p1" "org1" "admin1" "ADMIN" ud3).1 "u3" "assignment" =
        [assignedNotif task1 proj0 "p1" "t1" "u3"]) ∧
    ("u3" ∈ assigneesOf db0 "t1" → "u3" ∉ ["u2", "u3"] →
      notifsTo (updateTask db0 "t1" "p1" "org1" "admin1" "ADMIN" ud3).1 "u3" "assignment" =
        [unassignedNotif task1 proj0 "p1" "t1" "u3"]) ∧
    ("u3" ∈ assigneesOf db0 "t1" → "u3" ∈ ["u2", "u3"] →
      notifsTo (updateTask db0 "t1" "p1" "org1" "admin1" "ADMIN" ud3).1 "u3" "assignment" =
        []) :=
  c5_assignment_diff db0 "t1" "p1" "org1" "admin1" "ADMIN" ud3 proj0 task1 ["u2", "u3"]
    rfl rfl rfl (Or.inl rfl) rfl (by decide) (by decide) (by decide) "u3"

theorem mem_statusRecipients (A L : List String) (actor u : String) :
    u ∈ statusRecipients A L actor ↔ ((u ∈ A ∨ u ∈ L) ∧ u ≠ actor) := by
  simp [statusRecipients, mem_jsSetDedup, List.mem_filter]
  tauto

/-- Inversion of the scalar-write tail on a successful run that changed the
status: the result is the applied update, and the final store is the
written store plus one status-change notification per recipient. -/
theorem nodup_statusRecipients (A L : List String) (actor : String) :
    (statusRecipients A L actor).Nodup := nodup_jsSetDedup _

theorem performScalarUpdate_ok_changed_inv (db : DB) (project : Project) (task : Task)
    (old : String) (fd : UpdateData) (actor pid tid : String) (fdb : DB) (ut : Task)
    (hrun : performScalarUpdate db project task old fd actor pid tid = (fdb, .ok ut))
    (hch : ut.status ≠ old) :
    ut = applyScalarUpdate task fd ∧
    fdb = pushNotifications { db with tasks := taskWrite db.tasks fd pid tid }
      ((statusRecipients (assigneesOf db tid) project.projectTeamLeads actor).map
        (statusNotif ut old project pid tid)) := by
  by_cases hbd1 : badDate fd.startDate = true
  · rw [performScalarUpdate_badDate db project task old fd actor pid tid (Or.inl hbd1)]
      at hrun
    exact absurd (congrArg Prod.snd hrun) (by simp)
  · by_cases hbd2 : badDate fd.endDate = true
    · rw [performScalarUpdate_badDate db project task old fd actor pid tid (Or.inr hbd2)]
        at hrun
      exact absurd (congrArg Prod.snd hrun) (by simp)
    · have h1 : badDate fd.startDate = false := by
        revert hbd1; cases badDate fd.startDate <;> simp
      have h2 : badDate fd.endDate = false := by
        revert hbd2; cases badDate fd.endDate <;> simp
      by_cases hch0 : (applyScalarUpdate task fd).status = old
      · rw [performScalarUpdate_ok_unchanged db project task old fd actor pid tid h1 h2 hch0]
          at hrun
        rw [Prod.mk.injEq] at hrun
        obtain ⟨-, hB⟩ := hrun
        injection hB with hut
        exact absurd (hut ▸ hch0) hch
      · rw [performScalarUpdate_ok_changed db project task old fd actor pid tid h1 h2 hch0]
          at hrun
        rw [Prod.mk.injEq] at hrun
        obtain ⟨hA, hB⟩ := hrun
        injection hB with hut
        refine ⟨hut.symm, ?_⟩
        rw [← hut]
        exact hA.symm

/-- Core of the status-change fan-out argument: when the final store is a
middle store (holding no status-change notification) plus the fan-out over
the recipients computed from the middle store's assignee rows, each
recipient other than the actor holds exactly one status-change
notification, and the actor and non-recipients hold none. -/
theorem c6core (dbMid : DB) (project : Project) (ut : Task) (old actor pid tid : String)
    (fdb : DB)
    (hmid : ∀ u, notifsTo dbMid u "status_change" = [])
    (hfdb : fdb = pushNotifications dbMid
      ((statusRecipients (assigneesOf dbMid tid) project.projectTeamLeads actor).map
        (statusNotif ut old project pid tid))) :
    ∀ u : String,
      (u ≠ actor → (u ∈ assigneesOf fdb tid ∨ u ∈ project.projectTeamLeads) →
        notifsTo fdb u "status_change" = [statusNotif ut old project pid tid u]) ∧
      ((u = actor ∨ (u ∉ assigneesOf fdb tid ∧ u ∉ project.projectTeamLeads)) →
        notifsTo fdb u "status_change" = []) := by
  subst hfdb
  intro u
  have hbase : notifsTo (pushNotifications dbMid
      ((statusRecipients (assigneesOf dbMid tid) project.projectTeamLeads actor).map
        (statusNotif ut old project pid tid))) u "status_change" =
      ((statusRecipients (assigneesOf dbMid tid) project.projectTeamLeads actor).filter
        (fun a => a == u)).map (statusNotif ut old project pid tid) := by
    simp only [notifsTo, pushNotifications, List.filter_append]
    rw [filter_map_notif_eq _ (statusNotif ut old project pid tid) u "status_change"
      (fun a => rfl) (fun a => rfl)]
    have hm := hmid u
    simp only [notifsTo] at hm
    rw [hm]
    simp
  constructor
  · intro hne hmem
    have hmem' : u ∈ assigneesOf dbMid tid ∨ u ∈ project.projectTeamLeads := hmem
    rw [hbase, filter_beq_of_nodup_mem
      (statusRecipients (assigneesOf dbMid tid) project.projectTeamLeads actor) u
      (nodup_statusRecipients _ _ _)
      ((mem_statusRecipients _ _ _ _).mpr ⟨hmem', hne⟩)]
    rfl
  · intro hcase
    rw [hbase, filter_beq_of_not_mem _ u ?_]
    · rfl
    · intro hmemrec
      rcases (mem_statusRecipients _ _ _ _).mp hmemrec with ⟨hmm, hnea⟩
      rcases hcase with rfl | ⟨hna, hnl⟩
      · exact hnea rfl
      · rcases hmm with h | h
        · exact hna h
        · exact hnl h

/-- C6: for every successful task update that changes the task's status,
the recipients of status-change notifications are exactly the deduplicated
union of the task's current (post-update) assignees and the project team
leads, minus the acting user; each recipient gets exactly one notification
carrying the old and new status, and the actor gets none even when they
are an assignee or lead (log observed from empty). -/
theorem c6_status_fanout (db : DB) (tid pid oid actor role : String)
    (ud : UpdateData) (project : Project) (task : Task) (fdb : DB) (ut : Task)
    (hlog : db.notifications = [])
    (hp : findProject db pid oid = some project)
    (ht : findTask db tid pid = some task)
    (hrun : updateTask db tid pid oid actor role ud = (fdb, .ok ut))
    (hch : ut.status ≠ task.status) :
    ∀ u : String,
      (u ≠ actor → (u ∈ assigneesOf fdb tid ∨ u ∈ project.projectTeamLeads) →
        notifsTo fdb u "status_change" =
          [statusNotif ut task.status project pid tid u]) ∧
      ((u = actor ∨ (u ∉ assigneesOf fdb tid ∧ u ∉ project.projectTeamLeads)) →
        notifsTo fdb u "status_change" = []) := by
  simp only [updateTask, hp, ht] at hrun
  by_cases hadm : ((role == "ADMIN" || role == "SUPER_ADMIN") ||
      (project.projectTeamLeads.contains actor && role == "TEAM_LEADER")) = true
  · rw [if_pos hadm] at hrun
    cases hids : ud.assigneesIds with
    | none =>
      rw [adminBranch_no_ids db project task oid pid tid actor ud (assigneesOf db tid) hids]
        at hrun
      obtain ⟨-, hfdb⟩ := performScalarUpdate_ok_changed_inv db project task task.status
        ud actor pid tid fdb ut hrun hch
      exact c6core _ project ut task.status actor pid tid fdb
        (fun u => by simp [notifsTo, hlog]) hfdb
    | some ids =>
      by_cases hval : (db.users.filter
          (fun u => ids.contains u && isOrgMember db oid u)).length = ids.length
      · rw [adminBranch_valid_ids db project task oid pid tid actor ud (assigneesOf db tid)
          ids hids hval] at hrun
        obtain ⟨-, hfdb⟩ := performScalarUpdate_ok_changed_inv
          (afterAssigneeReplace db project task pid tid ids (assigneesOf db tid))
          project task task.status ud actor pid tid fdb ut hrun hch
        refine c6core _ project ut task.status actor pid tid fdb (fun u => ?_) hfdb
        simp only [notifsTo, afterAssigneeReplace, hlog, List.nil_append, List.filter_append]
        rw [filter_map_notif_ne _ (assignedNotif task project pid tid) u "status_change"
            (fun a => by simp),
          filter_map_notif_ne _ (unassignedNotif task project pid tid) u "status_change"
            (fun a => by simp)]
        rfl
      · rw [adminBranch_invalid_ids db project task oid pid tid actor ud (assigneesOf db tid)
          ids hids hval] at hrun
        exact absurd (congrArg Prod.snd hrun) (by simp)
  · rw [if_neg hadm] at hrun
    by_cases hass : ((assigneesOf db tid).contains actor) = true
    · rw [if_pos hass] at hrun
      by_cases hres : 0 < (ud.presentFields.filter (fun k => k != "status")).length
      · rw [if_pos hres] at hrun
        exact absurd (congrArg Prod.snd hrun) (by simp)
      · rw [if_neg hres] at hrun
        obtain ⟨-, hfdb⟩ := performScalarUpdate_ok_changed_inv db project task task.status
          { status := ud.status } actor pid tid fdb ut hrun hch
        exact c6core _ project ut task.status actor pid tid fdb
          (fun u => by simp [notifsTo, hlog]) hfdb
    · rw [if_neg hass] at hrun
      exact absurd (congrArg Prod.snd hrun) (by simp)

/-- Update request used by the C6 witness: a bare status change. -/
def ud6 : UpdateData := { status := some stStuck }

/-- Witness for C6 at a concrete input: an Admin (not an assignee) moves
`t1` to Stuck; observed at recipient `lead1`. -/
theorem c6_status_fanout_witness :
    ("lead1" ≠ "admin1" →
      ("lead1" ∈ assigneesOf (updateTask db0 "t1" "p1" "org1" "admin1" "ADMIN" ud6).1 "t1" ∨
        "lead1" ∈ proj0.projectTeamLeads) →
      notifsTo (updateTask db0 "t1" "p1" "org1" "admin1" "ADMIN" ud6).1 "lead1"
          "status_change" =
        [statusNotif { task1 with status := stStuck } task1.status proj0 "p1" "t1" "lead1"]) ∧
    (("lead1" = "admin1" ∨
      ("lead1" ∉ assigneesOf (updateTask db0 "t1" "p1" "org1" "admin1" "ADMIN" ud6).1 "t1" ∧
        "lead1" ∉ proj0.projectTeamLeads)) →
      notifsTo (updateTask db0 "t1" "p1" "org1" "admin1" "ADMIN" ud6).1 "lead1"
          "status_change" = []) :=
  c6_status_fanout db0 "t1" "p1" "org1" "admin1" "ADMIN" ud6 proj0 task1
    (updateTask db0 "t1" "p1" "org1" "admin1" "ADMIN" ud6).1
    { task1 with status := stStuck }
    rfl rfl rfl rfl (by decide) "lead1"

/-- The reorder transaction, unrolled: folding the per-id `displayOrder`
updates over `enumFrom k` of a duplicate-free id list rewrites each listed
task's `displayOrder` to `k +` its index and leaves every other task
unchanged. -/
theorem reorder_foldl (l : List String) (k : Nat) (d : DB) (hnd : l.Nodup) :
    ((List.enumFrom k l).foldl (fun d (p : Nat × String) =>
      { d with tasks := d.tasks.map (fun t =>
          if t.id == p.2 then { t with displayOrder := (p.1 : Int) } else t) }) d) =
    { d with tasks := d.tasks.map (fun t =>
        if t.id ∈ l then { t with displayOrder := ((k + List.indexOf t.id l : Nat) : Int) }
        else t) } := by
  induction l generalizing k d with
  | nil => simp
  | cons a l ih =>
    rcases List.nodup_cons.mp hnd with ⟨hna, hndl⟩
    rw [show List.enumFrom k (a :: l) = (k, a) :: List.enumFrom (k + 1) l from rfl,
      List.foldl_cons, ih (k + 1) _ hndl]
    show ({ d with tasks := (d.tasks.map (fun t =>
        if t.id == a then { t with displayOrder := (k : Int) } else t)).map (fun t =>
          if t.id ∈ l then { t with displayOrder := ((k + 1 + List.indexOf t.id l : Nat) : Int) }
          else t) } : DB) = _
    rw [List.map_map]
    congr 1
    apply List.map_congr_left
    intro t _
    by_cases hta : t.id = a
    · have hbeq : (t.id == a) = true := by simp [hta]
      simp only [Function.comp_apply, hbeq, if_pos]
      have hnotl : t.id ∉ l := hta ▸ hna
      rw [if_neg hnotl, if_pos (by simp [hta])]
      rw [hta, List.indexOf_cons_self]
      simp
    · have hbeq : (t.id == a) = false := by simp [hta]
      simp only [Function.comp_apply, hbeq, Bool.false_eq_true, if_false]
      by_cases htl : t.id ∈ l
      · rw [if_pos htl, if_pos (List.mem_cons_of_mem a htl)]
        rw [List.indexOf_cons_ne _ (fun hh => hta hh.symm)]
        congr 1
        push_cast
        ring
      · rw [if_neg htl, if_neg (by simp [hta, htl])]

/-- When the matched-row count equals the request length and task ids are
unique, the requested id list is duplicate-free and every listed id names a
task of the project. -/
theorem reorder_count_facts (db : DB) (pid : String) (l : List String)
    (hnd : (db.tasks.map Task.id).Nodup)
    (hlen : (db.tasks.filter
      (fun t => l.contains t.id && t.projectId == pid)).length = l.length) :
    l.Nodup ∧ (∀ i ∈ l, ∃ t ∈ db.tasks, t.id = i ∧ t.projectId = pid) := by
  set S : List String :=
    (db.tasks.filter (fun t => l.contains t.id && t.projectId == pid)).map Task.id with hS
  have hndS : S.Nodup := by
    apply hnd.sublist
    exact List.Sublist.map Task.id (List.filter_sublist db.tasks)
  have hSlen : S.length = l.length := by
    rw [hS, List.length_map]; exact hlen
  have hSsub : ∀ x ∈ S, x ∈ l := by
    intro x hx
    rw [hS] at hx
    rcases List.mem_map.mp hx with ⟨t, htf, rfl⟩
    rcases List.mem_filter.mp htf with ⟨-, hcond⟩
    simp only [Bool.and_eq_true] at hcond
    obtain ⟨hc, -⟩ := hcond
    simpa using hc
  have hcard : S.toFinset = l.toFinset := by
    apply Finset.eq_of_subset_of_card_le
    · intro x hx
      exact List.mem_toFinset.mpr (hSsub x (List.mem_toFinset.mp hx))
    · calc l.toFinset.card ≤ l.length := l.toFinset_card_le
        _ = S.length := hSlen.symm
        _ = S.toFinset.card := (List.toFinset_card_of_nodup hndS).symm
  have hlnd : l.Nodup := by
    have h1 : l.dedup.length = l.toFinset.card := (List.card_toFinset l).symm
    have h2 : l.toFinset.card = l.length := by
      rw [← hcard, List.toFinset_card_of_nodup hndS, hSlen]
    have h3 : l.dedup = l := (List.dedup_sublist l).eq_of_length (by rw [h1, h2])
    rw [← h3]
    exact l.nodup_dedup
  refine ⟨hlnd, fun i hi => ?_⟩
  have hiS : i ∈ S := by
    have : i ∈ S.toFinset := hcard ▸ List.mem_toFinset.mpr hi
    exact List.mem_toFinset.mp this
  rw [hS] at hiS
  rcases List.mem_map.mp hiS with ⟨t, htf, rfl⟩
  rcases List.mem_filter.mp htf with ⟨htm, hcond⟩
  simp only [Bool.and_eq_true] at hcond
  obtain ⟨-, hpid⟩ := hcond
  exact ⟨t, htm, rfl, by simpa using hpid⟩

/-- C7: a reorder request whose listed ids all belong to the project and
whose matched-row count equals its length sets each listed task's
`displayOrder` to its index in the list (values `0..N-1` in submitted
order) and leaves unlisted tasks untouched; otherwise it fails with the
validation error and performs zero writes. -/
theorem c7_reorder_atomicity (db : DB) (pid oid : String) (l : List String)
    (project : Project)
    (hp : findProject db pid oid = some project)
    (hnd : (db.tasks.map Task.id).Nodup) :
    (((∀ i ∈ l, ∃ t ∈ db.tasks, t.id = i ∧ t.projectId = pid) ∧
       (db.tasks.filter
         (fun t => l.contains t.id && t.projectId == pid)).length = l.length) →
      reorderTasks db pid oid l =
        ({ db with tasks := db.tasks.map (fun t =>
            if t.id ∈ l then { t with displayOrder := ((List.indexOf t.id l : Nat) : Int) }
            else t) }, .ok ())) ∧
    (¬((∀ i ∈ l, ∃ t ∈ db.tasks, t.id = i ∧ t.projectId = pid) ∧
       (db.tasks.filter
         (fun t => l.contains t.id && t.projectId == pid)).length = l.length) →
      reorderTasks db pid oid l = (db, .error .invalidReorderIds)) := by
  constructor
  · rintro ⟨-, hlen⟩
    obtain ⟨hlnd, -⟩ := reorder_count_facts db pid l hnd hlen
    simp only [reorderTasks, hp]
    rw [if_neg (fun hbne => (bne_iff_ne.mp hbne) hlen)]
    rw [show List.enum l = List.enumFrom 0 l from rfl]
    rw [reorder_foldl l 0 db hlnd]
    simp only [Nat.zero_add]
  · intro hno
    have hne : (db.tasks.filter
        (fun t => l.contains t.id && t.projectId == pid)).length ≠ l.length := by
      intro heq
      exact hno ⟨(reorder_count_facts db pid l hnd heq).2, heq⟩
    simp only [reorderTasks, hp]
    rw [if_pos (bne_iff_ne.mpr hne)]

/-- Witness for C7 at a concrete input: tasks `[t1, t2, t3]` reordered by
the request `[t3, t1, t2]`. -/
theorem c7_reorder_atomicity_witness :
    (((∀ i ∈ ["t3", "t1", "t2"], ∃ t ∈ db0.tasks, t.id = i ∧ t.projectId = "p1") ∧
       (db0.tasks.filter
         (fun t => ["t3", "t1", "t2"].contains t.id && t.projectId == "p1")).length =
         (["t3", "t1", "t2"] : List String).length) →
      reorderTasks db0 "p1" "org1" ["t3", "t1", "t2"] =
        ({ db0 with tasks := db0.tasks.map (fun t =>
            if t.id ∈ ["t3", "t1", "t2"] then
              { t with displayOrder := ((List.indexOf t.id ["t3", "t1", "t2"] : Nat) : Int) }
            else t) }, .ok ())) ∧
    (¬((∀ i ∈ ["t3", "t1", "t2"], ∃ t ∈ db0.tasks, t.id = i ∧ t.projectId = "p1") ∧
       (db0.tasks.filter
         (fun t => ["t3", "t1", "t2"].contains t.id && t.projectId == "p1")).length =
         (["t3", "t1", "t2"] : List String).length) →
      reorderTasks db0 "p1" "org1" ["t3", "t1", "t2"] = (db0, .error .invalidReorderIds)) :=
  c7_reorder_atomicity db0 "p1" "org1" ["t3", "t1", "t2"] proj0 rfl (by decide)

/-- Counterexample for C8 as stated: the assignee-validation failure does
not name the invalid ids. The thrown message is one fixed string — two
requests differing only in which invalid id they carry produce identical
failures, and the message does not contain the offending id. -/
theorem c8_counterexample :
    updateTask db0 "t1" "p1" "org1" "admin1" "ADMIN"
        { assigneesIds := some ["u2", "ghost1"] } =
      (db0, .error .invalidAssignees) ∧
    updateTask db0 "t1" "p1" "org1" "admin1" "ADMIN"
        { assigneesIds := some ["u2", "ghost2"] } =
      (db0, .error .invalidAssignees) ∧
    ¬ List.IsInfix "ghost1".toList (UErr.message .invalidAssignees).toList := by
  set_option maxRecDepth 4000 in
  refine ⟨rfl, rfl, by decide⟩

/-- C8 (amended): a permitted assignee replacement containing an id that
holds no membership in the task's organization fails entirely with the
invalid-assignees validation error (a fixed message that does not name the
ids), and no partial mutation occurs: the store, including the task's
assignee set and every task field, is returned unchanged. -/
theorem c8_invalid_assignee_all_or_nothing (db : DB) (tid pid oid actor role : String)
    (ud : UpdateData) (project : Project) (task : Task) (ids : List String) (v : String)
    (hp : findProject db pid oid = some project)
    (ht : findTask db tid pid = some task)
    (hrole : role = "ADMIN" ∨ role = "SUPER_ADMIN" ∨
      (actor ∈ project.projectTeamLeads ∧ role = "TEAM_LEADER"))
    (hids : ud.assigneesIds = some ids)
    (husers : db.users.Nodup)
    (hv : v ∈ ids) (hvbad : isOrgMember db oid v = false) :
    updateTask db tid pid oid actor role ud = (db, .error .invalidAssignees) := by
  have hval : (db.users.filter
      (fun u => ids.contains u && isOrgMember db oid u)).length ≠ ids.length := by
    set F := db.users.filter (fun u => ids.contains u && isOrgMember db oid u) with hF
    have hFnd : F.Nodup := husers.filter _
    have hFsub : F.toFinset ⊆ ids.toFinset.erase v := by
      intro x hx
      have hxF : x ∈ F := List.mem_toFinset.mp hx
      rw [hF] at hxF
      rcases List.mem_filter.mp hxF with ⟨-, hcond⟩
      simp only [Bool.and_eq_true] at hcond
      obtain ⟨hcont, hmem⟩ := hcond
      have hxids : x ∈ ids := by simpa using hcont
      have hxv : x ≠ v := fun hxy => by rw [hxy] at hmem; rw [hvbad] at hmem; cases hmem
      exact Finset.mem_erase.mpr ⟨hxv, List.mem_toFinset.mpr hxids⟩
    have hlt : F.length < ids.length := by
      calc F.length = F.toFinset.card := (List.toFinset_card_of_nodup hFnd).symm
        _ ≤ (ids.toFinset.erase v).card := Finset.card_le_card hFsub
        _ = ids.toFinset.card - 1 :=
          Finset.card_erase_of_mem (List.mem_toFinset.mpr hv)
        _ ≤ ids.length - 1 := Nat.sub_le_sub_right ids.toFinset_card_le 1
        _ < ids.length := Nat.sub_lt (List.length_pos.mpr (List.ne_nil_of_mem hv))
          Nat.one_pos
    exact Nat.ne_of_lt hlt
  rw [updateTask_admin db tid pid oid actor role ud project task hp ht hrole,
    adminBranch_invalid_ids db project task oid pid tid actor ud (assigneesOf db tid)
      ids hids hval]

/-- Witness for the amended C8 at a concrete input: replacement set
`{u2, ghost1}` where `ghost1` is no member of `org1`. -/
theorem c8_invalid_assignee_all_or_nothing_witness :
    updateTask db0 "t1" "p1" "org1" "admin1" "ADMIN"
        { assigneesIds := some ["u2", "ghost1"] } =
      (db0, .error .invalidAssignees) :=
  c8_invalid_assignee_all_or_nothing db0 "t1" "p1" "org1" "admin1" "ADMIN"
    { assigneesIds := some ["u2", "ghost1"] } proj0 task1 ["u2", "ghost1"] "ghost1"
    rfl rfl (Or.inl rfl) rfl (by decide) (by decide) (by decide)

/-- Update request used by the C9 counterexample and witness: a valid
assignee replacement together with an unparsable start date. -/
def ud9 : UpdateData := { assigneesIds := some ["u3"], startDate := some "not-a-date" }

/-- Counterexample for C9 as stated: with a valid assignee replacement and
an unparsable `startDate` in the same request, the update does fail on the
date — but the failure is not detected before any write: the assignee
replacement (with its notifications) has already been committed, so the
task's assignee set has changed from `[u1, u2]` to `[u3]`. -/
theorem c9_counterexample :
    (updateTask db0 "t1" "p1" "org1" "admin1" "ADMIN" ud9).2 =
      .error .invalidDateValue ∧
    assigneesOf db0 "t1" = ["u1", "u2"] ∧
    assigneesOf (updateTask db0 "t1" "p1" "org1" "admin1" "ADMIN" ud9).1 "t1" = ["u3"] ∧
    (["u3"] : List String) ≠ ["u1", "u2"] := by
  set_option maxRecDepth 10000 in
  refine ⟨by decide, by decide, by decide, by decide⟩

/-- C9 (amended): a permitted update whose field map holds a non-empty
`startDate` or `endDate` string that does not parse as a calendar date
fails with the invalid-date error and the task rows are not written — but
the failure is raised only at the task-write step: when the request holds
no assignee replacement the store is fully unchanged, while a valid
assignee replacement in the same request has already been committed before
the date failure (an empty-string date is falsy and silently dropped
rather than rejected). -/
theorem c9_invalid_date_rejected_at_write (db : DB) (tid pid oid actor role : String)
    (ud : UpdateData) (project : Project) (task : Task)
    (hp : findProject db pid oid = some project)
    (ht : findTask db tid pid = some task)
    (hrole : role = "ADMIN" ∨ role = "SUPER_ADMIN" ∨
      (actor ∈ project.projectTeamLeads ∧ role = "TEAM_LEADER"))
    (hvalid : ∀ ids, ud.assigneesIds = some ids →
      (db.users.filter
        (fun u => ids.contains u && isOrgMember db oid u)).length = ids.length)
    (hbad : badDate ud.startDate = true ∨ badDate ud.endDate = true) :
    (updateTask db tid pid oid actor role ud).2 = .error .invalidDateValue ∧
    (updateTask db tid pid oid actor role ud).1.tasks = db.tasks ∧
    (ud.assigneesIds = none → (updateTask db tid pid oid actor role ud).1 = db) := by
  have hred := updateTask_admin db tid pid oid actor role ud project task hp ht hrole
  cases hids : ud.assigneesIds with
  | none =>
    rw [adminBranch_no_ids db project task oid pid tid actor ud (assigneesOf db tid) hids]
      at hred
    rw [performScalarUpdate_badDate db project task task.status ud actor pid tid hbad]
      at hred
    rw [hred]
    exact ⟨rfl, rfl, fun _ => rfl⟩
  | some ids =>
    rw [adminBranch_valid_ids db project task oid pid tid actor ud (assigneesOf db tid)
      ids hids (hvalid ids hids)] at hred
    rw [performScalarUpdate_badDate _ project task task.status ud actor pid tid hbad]
      at hred
    rw [hred]
    exact ⟨rfl, rfl, fun h => by cases h⟩

/-- Witness for the amended C9 at the concrete input of the
counterexample. -/
theorem c9_invalid_date_rejected_at_write_witness :
    (updateTask db0 "t1" "p1" "org1" "admin1" "ADMIN" ud9).2 =
      .error .invalidDateValue ∧
    (updateTask db0 "t1" "p1" "org1" "admin1" "ADMIN" ud9).1.tasks = db0.tasks ∧
    (ud9.assigneesIds = none →
      (updateTask db0 "t1" "p1" "org1" "admin1" "ADMIN" ud9).1 = db0) :=
  c9_invalid_date_rejected_at_write db0 "t1" "p1" "org1" "admin1" "ADMIN" ud9 proj0 task1
    rfl rfl (Or.inl rfl) (fun ids h => by cases h; decide)
    (Or.inl (by set_option maxRecDepth 10000 in decide))

/-- C10: when one permitted update both replaces the assignee set and
changes the status, the status-change recipient set is computed from the
assignee set AFTER the replacement: each newly added assignee other than
the actor receives both an assignment notification and a status-change
notification, while each removed assignee who is not a project team lead
receives the unassignment notification and no status-change notification
(log observed from empty). -/
theorem c10_combined_update_uses_new_assignees (db : DB)
    (tid pid oid actor role : String) (ud : UpdateData) (project : Project) (task : Task)
    (ids : List String) (s1 : String)
    (hlog : db.notifications = [])
    (hp : findProject db pid oid = some project)
    (ht : findTask db tid pid = some task)
    (hrole : role = "ADMIN" ∨ role = "SUPER_ADMIN" ∨
      (actor ∈ project.projectTeamLeads ∧ role = "TEAM_LEADER"))
    (hids : ud.assigneesIds = some ids)
    (hval : (db.users.filter
      (fun u => ids.contains u && isOrgMember db oid u)).length = ids.length)
    (hndOld : (assigneesOf db tid).Nodup) (hndNew : ids.Nodup)
    (hst : ud.status = some s1) (hch : s1 ≠ task.status)
    (h1 : badDate ud.startDate = false) (h2 : badDate ud.endDate = false) :
    ∀ u : String,
      (u ∈ ids → u ∉ assigneesOf db tid → u ≠ actor →
        notifsTo (updateTask db tid pid oid actor role ud).1 u "assignment" =
          [assignedNotif task project pid tid u] ∧
        notifsTo (updateTask db tid pid oid actor role ud).1 u "status_change" =
          [statusNotif (applyScalarUpdate task ud) task.status project pid tid u]) ∧
      (u ∈ assigneesOf db tid → u ∉ ids → u ∉ project.projectTeamLeads →
        notifsTo (updateTask db tid pid oid actor role ud).1 u "assignment" =
          [unassignedNotif task project pid tid u] ∧
        notifsTo (updateTask db tid pid oid actor role ud).1 u "status_change" = []) := by
  intro u
  have hred := updateTask_admin db tid pid oid actor role ud project task hp ht hrole
  rw [adminBranch_valid_ids db project task oid pid tid actor ud (assigneesOf db tid)
    ids hids hval] at hred
  have happst : (applyScalarUpdate task ud).status = s1 := by
    simp [applyScalarUpdate, hst]
  rw [performScalarUpdate_ok_changed _ project task task.status ud actor pid tid h1 h2
    (by rw [happst]; exact hch)] at hred
  rw [assigneesOf_afterAssigneeReplace] at hred
  have hnot : (updateTask db tid pid oid actor role ud).1.notifications =
      ((ids.filter (fun i => !((assigneesOf db tid).contains i))).map
        (assignedNotif task project pid tid) ++
       ((assigneesOf db tid).filter (fun i => !(ids.contains i))).map
        (unassignedNotif task project pid tid)) ++
      ((statusRecipients ids project.projectTeamLeads actor).map
        (statusNotif (applyScalarUpdate task ud) task.status project pid tid)) := by
    rw [hred]
    simp only [pushNotifications, afterAssigneeReplace, hlog, List.nil_append]
  have hassign : notifsTo (updateTask db tid pid oid actor role ud).1 u "assignment" =
      ((ids.filter (fun i => !((assigneesOf db tid).contains i))).filter
        (fun a => a == u)).map (assignedNotif task project pid tid) ++
      (((assigneesOf db tid).filter (fun i => !(ids.contains i))).filter
        (fun a => a == u)).map (unassignedNotif task project pid tid) := by
    simp only [notifsTo, hnot, List.filter_append]
    rw [filter_map_notif_eq (ids.filter (fun i => !((assigneesOf db tid).contains i)))
        (assignedNotif task project pid tid) u "assignment" (fun a => rfl) (fun a => rfl),
      filter_map_notif_eq ((assigneesOf db tid).filter (fun i => !(ids.contains i)))
        (unassignedNotif task project pid tid) u "assignment" (fun a => rfl) (fun a => rfl),
      filter_map_notif_ne (statusRecipients ids project.projectTeamLeads actor)
        (statusNotif (applyScalarUpdate task ud) task.status project pid tid) u "assignment"
        (fun a => by simp)]
    simp
  have hstatus : notifsTo (updateTask db tid pid oid actor role ud).1 u "status_change" =
      ((statusRecipients ids project.projectTeamLeads actor).filter (fun a => a == u)).map
        (statusNotif (applyScalarUpdate task ud) task.status project pid tid) := by
    simp only [notifsTo, hnot, List.filter_append]
    rw [filter_map_notif_ne (ids.filter (fun i => !((assigneesOf db tid).contains i)))
        (assignedNotif task project pid tid) u "status_change" (fun a => by simp),
      filter_map_notif_ne ((assigneesOf db tid).filter (fun i => !(ids.contains i)))
        (unassignedNotif task project pid tid) u "status_change" (fun a => by simp),
      filter_map_notif_eq (statusRecipients ids project.projectTeamLeads actor)
        (statusNotif (applyScalarUpdate task ud) task.status project pid tid) u
        "status_change" (fun a => rfl) (fun a => rfl)]
    simp
  have hndAdded : (ids.filter (fun i => !((assigneesOf db tid).contains i))).Nodup :=
    hndNew.filter _
  have hndRemoved : ((assigneesOf db tid).filter (fun i => !(ids.contains i))).Nodup :=
    hndOld.filter _
  have hmemAdded : ∀ v : String,
      v ∈ ids.filter (fun i => !((assigneesOf db tid).contains i)) ↔
        (v ∈ ids ∧ v ∉ assigneesOf db tid) := by
    intro v; simp [List.mem_filter]
  have hmemRemoved : ∀ v : String,
      v ∈ (assigneesOf db tid).filter (fun i => !(ids.contains i)) ↔
        (v ∈ assigneesOf db tid ∧ v ∉ ids) := by
    intro v; simp [List.mem_filter]
  refine ⟨fun hin hout hne => ⟨?_, ?_⟩, fun hin hout hnl => ⟨?_, ?_⟩⟩
  · rw [hassign,
      filter_beq_of_nodup_mem _ u hndAdded ((hmemAdded u).mpr ⟨hin, hout⟩),
      filter_beq_of_not_mem _ u (fun hmem => ((hmemRemoved u).mp hmem).2 hin)]
    rfl
  · rw [hstatus,
      filter_beq_of_nodup_mem (statusRecipients ids project.projectTeamLeads actor) u
        (nodup_statusRecipients _ _ _)
        ((mem_statusRecipients _ _ _ _).mpr ⟨Or.inl hin, hne⟩)]
    rfl
  · rw [hassign,
      filter_beq_of_not_mem _ u (fun hmem => ((hmemAdded u).mp hmem).2 hin),
      filter_beq_of_nodup_mem _ u hndRemoved ((hmemRemoved u).mpr ⟨hin, hout⟩)]
    rfl
  · rw [hstatus, filter_beq_of_not_mem _ u ?_]
    · rfl
    · intro hmemrec
      rcases (mem_statusRecipients _ _ _ _).mp hmemrec with ⟨hmm, -⟩
      rcases hmm with h | h
      · exact hout h
      · exact hnl h

/-- Witness for C10 at a concrete input: old assignees `{u1, u2}`, new
assignees `{u2, u3}` with a simultaneous status change, observed at the
newly added assignee `u3`. -/
theorem c10_combined_update_uses_new_assignees_witness :
    ("u3" ∈ ["u2", "u3"] → "u3" ∉ assigneesOf db0 "t1" → "u3" ≠ "admin1" →
      notifsTo (updateTask db0 "t1" "p1" "org1" "admin1" "ADMIN" ud3).1 "u3" "assignment" =
        [assignedNotif task1 proj0 "p1" "t1" "u3"] ∧
      notifsTo (updateTask db0 "t1" "p1" "org1" "admin1" "ADMIN" ud3).1 "u3"
          "status_change" =
        [statusNotif (applyScalarUpdate task1 ud3) task1.status proj0 "p1" "t1" "u3"]) ∧
    ("u3" ∈ assigneesOf db0 "t1" → "u3" ∉ ["u2", "u3"] →
      "u3" ∉ proj0.projectTeamLeads →
      notifsTo (updateTask db0 "t1" "p1" "org1" "admin1" "ADMIN" ud3).1 "u3" "assignment" =
        [unassignedNotif task1 proj0 "p1" "t1" "u3"] ∧
      notifsTo (updateTask db0 "t1" "p1" "org1" "admin1" "ADMIN" ud3).1 "u3"
          "status_change" = []) :=
  c10_combined_update_uses_new_assignees db0 "t1" "p1" "org1" "admin1" "ADMIN" ud3
    proj0 task1 ["u2", "u3"] stCompleted rfl rfl rfl (Or.inl rfl) rfl (by decide)
    (by decide) (by decide) rfl (by decide) rfl rfl "u3"

end ProjectFlow
